import Mathlib

/-!
Verification of the PhynixDrive backend core: permission resolution,
sharing, cascading soft delete, trash restore and quota enforcement.

The Go services are shallowly embedded as pure Lean functions over an
explicit database state `DB` that models the MongoDB collections
(`folders`, `files`, `permissions`, `shares`, `users`).  Mongo queries
are modelled with `List.find?` / `List.filter` over those lists, updates
with `List.map`, and the multi-document transactions used by the folder
cascade with an `Except`-valued callback whose error outcome discards
every intermediate write.  Recursive walks (parent-chain resolution,
subtree cascades) take an explicit fuel argument standing for the
unbounded Go recursion.  Time stamps are natural numbers.
-/

namespace PhynixDrive

/-- Folder document (`models.Folder`): id, name, optional parent id,
owner, materialized path, soft-delete flag and timestamp. -/
structure Folder where
  fid : Nat
  name : String
  parentId : Option Nat
  ownerId : Nat
  path : String
  isDeleted : Bool
  deletedAt : Option Nat
  deriving Repr, DecidableEq

/-- File document (`models.File`): id, name, size, containing folder id
(`folder_id`, set by the upload path), the separate never-populated
`parent_id` field, owner, relative path, soft-delete flag and timestamp. -/
structure File where
  fid : Nat
  name : String
  size : Int
  folderId : Option Nat
  parentId : Option Nat
  ownerId : Nat
  relativePath : String
  isDeleted : Bool
  deletedAt : Option Nat
  deriving Repr, DecidableEq

/-- Permission document (`models.Permission`): grant of a role on a
resource to a user. -/
structure Permission where
  pid : Nat
  userId : Nat
  role : String
  resourceId : Nat
  resourceType : String
  grantedBy : Nat
  grantedAt : Nat
  isActive : Bool
  deriving Repr, DecidableEq

/-- Share document (`models.Share`): denormalized share-log entry
mirroring a grant. -/
structure Share where
  sid : Nat
  resourceId : Nat
  resourceType : String
  sharedWith : Nat
  sharedBy : Nat
  role : String
  sharedAt : Nat
  isActive : Bool
  deriving Repr, DecidableEq

/-- User document: id, email, display names, storage accounting. -/
structure User where
  uid : Nat
  email : String
  firstName : String
  lastName : String
  usedStorage : Int
  deriving Repr, DecidableEq

/-- The database state: one list per MongoDB collection, plus a fresh-id
counter modelling `primitive.NewObjectID`. -/
structure DB where
  folders : List Folder
  files : List File
  permissions : List Permission
  shares : List Share
  users : List User
  nextId : Nat
  deriving Repr, DecidableEq

deriving instance DecidableEq for Except

/-- Role ranks from `hasRequiredRole`: viewer 1, editor 2, admin 3,
anything else unknown. -/
def roleLevel (role : String) : Option Nat :=
  if role = "viewer" then some 1
  else if role = "editor" then some 2
  else if role = "admin" then some 3
  else none

/-- `hasRequiredRole` from the permission service: both roles must be
known and the user level must reach the required level. -/
def hasRequiredRole (userRole requiredRole : String) : Bool :=
  match roleLevel userRole, roleLevel requiredRole with
  | some u, some r => u ≥ r
  | _, _ => false

/-- `isValidRole`: the three known roles. -/
def isValidRole (role : String) : Bool :=
  role = "viewer" || role = "editor" || role = "admin"

/-- Folder lookup used by the resolver: `FindOne {_id, deleted_at: nil}`
on the folders collection. -/
def findFolder (db : DB) (folderId : Nat) : Option Folder :=
  db.folders.find? (fun f => f.fid == folderId && f.deletedAt == none)

/-- File lookup used by the resolver: `FindOne {_id, deleted_at: nil}`
on the files collection. -/
def findFile (db : DB) (fileId : Nat) : Option File :=
  db.files.find? (fun f => f.fid == fileId && f.deletedAt == none)

/-- `checkDirectPermission`: first permission document matching
(user, resource, resource type); note the query does not filter on
`is_active`.  Returns the role comparison, or false when absent. -/
def checkDirectPermission (db : DB) (userId resourceId : Nat)
    (resourceType requiredRole : String) : Bool :=
  match db.permissions.find? (fun p =>
      p.userId == userId && p.resourceId == resourceId &&
      p.resourceType == resourceType) with
  | none => false
  | some p => hasRequiredRole p.role requiredRole

/-- `HasFolderPermission` / `hasFolderPermissionInternal`: fetch the
live folder, grant to the owner, otherwise try the direct permission,
otherwise recurse on the parent.  `fuel` bounds the recursion that Go
performs unboundedly over the parent chain. -/
def hasFolderPermission : Nat → DB → Nat → Nat → String → Except String Bool
  | 0, _, _, _, _ => .error "recursion limit"
  | fuel+1, db, userId, folderId, requiredRole =>
    match findFolder db folderId with
    | none => .error "folder not found"
    | some folder =>
      if folder.ownerId = userId then .ok true
      else if checkDirectPermission db userId folderId "folder" requiredRole then .ok true
      else
        match folder.parentId with
        | some pid => hasFolderPermission fuel db userId pid requiredRole
        | none => .ok false

/-- `HasFilePermission` / `hasFilePermissionInternal`: fetch the live
file, grant to the owner, recurse into the containing folder when the
file is in one, otherwise fall back to the direct file grant. -/
def hasFilePermission (fuel : Nat) (db : DB) (userId fileId : Nat)
    (requiredRole : String) : Except String Bool :=
  match findFile db fileId with
  | none => .error "file not found"
  | some file =>
    if file.ownerId = userId then .ok true
    else
      match file.folderId with
      | some gid => hasFolderPermission fuel db userId gid requiredRole
      | none => .ok (checkDirectPermission db userId fileId "file" requiredRole)

/-- Database used to witness the owner-supremacy theorem: user 7 owns
folder 1 and file 2, and no grant records exist. -/
def ownerDB : DB :=
  { folders := [{ fid := 1, name := "A", parentId := none, ownerId := 7,
                  path := "A", isDeleted := false, deletedAt := none }]
    files := [{ fid := 2, name := "doc.txt", size := 10, folderId := none,
                parentId := none, ownerId := 7, relativePath := "doc.txt",
                isDeleted := false, deletedAt := none }]
    permissions := []
    shares := []
    users := []
    nextId := 100 }

/-- Last element of a non-empty id list (the topmost ancestor of a
parent-chain walk). -/
def lastId : List Nat → Option Nat
  | [] => none
  | [x] => some x
  | _ :: y :: rest => lastId (y :: rest)

/-- A list of folder ids `[F, …, A]` is a live parent chain when every
folder except possibly the last is live with `parentId` pointing at the
next entry, and the last is live as well. -/
def chainOk (db : DB) : List Nat → Bool
  | [] => false
  | [x] => (findFolder db x).isSome
  | x :: y :: rest =>
    match findFolder db x with
    | some folder => folder.parentId == some y && chainOk db (y :: rest)
    | none => false

/-- Folder record A of the inheritance witness database. -/
def inhA : Folder :=
  { fid := 1, name := "Docs", parentId := none, ownerId := 9,
    path := "Docs", isDeleted := false, deletedAt := none }

/-- Folder record B (child of A) of the inheritance witness database. -/
def inhB : Folder :=
  { fid := 2, name := "Sub", parentId := some 1, ownerId := 9,
    path := "Docs/Sub", isDeleted := false, deletedAt := none }

/-- Folder record C (child of B) of the inheritance witness database. -/
def inhC : Folder :=
  { fid := 3, name := "Deep", parentId := some 2, ownerId := 9,
    path := "Docs/Sub/Deep", isDeleted := false, deletedAt := none }

/-- File placed inside folder C of the inheritance witness database. -/
def inhFile : File :=
  { fid := 4, name := "f.txt", size := 5, folderId := some 3,
    parentId := none, ownerId := 9, relativePath := "Docs/Sub/Deep/f.txt",
    isDeleted := false, deletedAt := none }

/-- Active editor grant on folder A for user 5, the only grant row of
the inheritance witness database. -/
def inhGrant : Permission :=
  { pid := 50, userId := 5, role := "editor", resourceId := 1,
    resourceType := "folder", grantedBy := 9, grantedAt := 0,
    isActive := true }

/-- Inheritance witness database: chain C → B → A with a single active
editor grant for user 5 on the top ancestor A, and a file inside C. -/
def inhDB : DB :=
  { folders := [inhA, inhB, inhC], files := [inhFile],
    permissions := [inhGrant], shares := [], users := [], nextId := 100 }

/-- Folder F of the nearest-grant database, child of folder 1. -/
def ngF : Folder :=
  { fid := 2, name := "F", parentId := some 1, ownerId := 9,
    path := "A/F", isDeleted := false, deletedAt := none }

/-- Nearest-grant database: folder F (id 2) under folder A (id 1), user
5 holding an active viewer grant directly on F and an active admin grant
on the ancestor A. -/
def ngDB : DB :=
  { folders := [{ fid := 1, name := "A", parentId := none, ownerId := 9,
                  path := "A", isDeleted := false, deletedAt := none }, ngF]
    files := []
    permissions :=
      [{ pid := 60, userId := 5, role := "viewer", resourceId := 2,
         resourceType := "folder", grantedBy := 9, grantedAt := 0,
         isActive := true },
       { pid := 61, userId := 5, role := "admin", resourceId := 1,
         resourceType := "folder", grantedBy := 9, grantedAt := 0,
         isActive := true }]
    shares := [], users := [], nextId := 100 }

/-- Storage cap from the file service: `2 * 1024 * 1024 * 1024` bytes,
i.e. 2 GiB = 2147483648 bytes (the constant the Go code comments call
"2GB"). -/
def maxUserStorage : Int := 2 * 1024 * 1024 * 1024

/-- Per-file size limit from the file service: 100 MiB. -/
def maxFileSize : Int := 100 * 1024 * 1024

/-- `CheckStorageQuota`: look the user up and compare
`usedStorage + additionalSize` against the cap. -/
def checkStorageQuota (db : DB) (userId : Nat) (additionalSize : Int) :
    Except String Bool :=
  match db.users.find? (fun w => w.uid == userId) with
  | none => .error "user not found"
  | some w => .ok (decide (w.usedStorage + additionalSize ≤ maxUserStorage))

/-- Outcome of an upload call: the database afterwards, the call result,
and how many storage-backend (B2) writes were performed. -/
structure UploadResult where
  db : DB
  result : Except String Unit
  storageWrites : Nat
  deriving Repr, DecidableEq

/-- `UploadFiles` pre-write gating and effect, for uploads whose
relative paths are bare file names (no folder component): reject an
empty batch, look the user up, reject any file above the per-file limit,
reject the batch when `usedStorage + totalSize` exceeds the cap — all
before any storage-backend write — then upload each file to storage,
insert its metadata document and add the batch size to the user's
`used_storage`.  Backend writes are modelled as succeeding. -/
def uploadFiles (db : DB) (userId : Nat) (uploads : List (String × Int)) :
    UploadResult :=
  if uploads.isEmpty then ⟨db, .error "no files to upload", 0⟩
  else
    match db.users.find? (fun w => w.uid == userId) with
    | none => ⟨db, .error "user not found", 0⟩
    | some w =>
      if uploads.any (fun fs => decide (maxFileSize < fs.2)) then
        ⟨db, .error "file exceeds maximum size of 100MB", 0⟩
      else
        let total := (uploads.map Prod.snd).sum
        if decide (maxUserStorage < w.usedStorage + total) then
          ⟨db, .error "upload would exceed storage limit of 2GB", 0⟩
        else
          let newFiles := uploads.enum.map (fun en =>
            ({ fid := db.nextId + en.1, name := en.2.1, size := en.2.2,
               folderId := none, parentId := none, ownerId := userId,
               relativePath := en.2.1, isDeleted := false,
               deletedAt := none } : File))
          ⟨{ db with
               files := db.files ++ newFiles,
               users := db.users.map (fun x =>
                 if x.uid == userId then
                   { x with usedStorage := x.usedStorage + total } else x),
               nextId := db.nextId + uploads.length },
            .ok (), uploads.length⟩

/-- Database for the quota counterexample: user 42 has used
1999999999 bytes of storage. -/
def quotaDB : DB :=
  { folders := [], files := [], permissions := [], shares := [],
    users := [{ uid := 42, email := "u@x.io", firstName := "U",
                lastName := "X", usedStorage := 1999999999 }],
    nextId := 0 }

/-- Soft-delete marking of a folder record: the `$set {is_deleted: true,
deleted_at: now}` update of the delete cascade. -/
def markFolder (now : Nat) (f : Folder) : Folder :=
  { f with isDeleted := true, deletedAt := some now }

/-- Soft-delete marking of a file record. -/
def markFile (now : Nat) (f : File) : File :=
  { f with isDeleted := true, deletedAt := some now }

/-- The `UpdateOne {_id: X, is_deleted: false}` write that marks the
root folder of a delete cascade. -/
def markTopFolder (now : Nat) (fid : Nat) (db : DB) : DB :=
  { db with folders := db.folders.map (fun f =>
      if f.fid = fid ∧ f.isDeleted = false then markFolder now f else f) }

/-- The bulk write of `softDeleteSubfolders`: mark every folder whose id
is in `ids` (the ids were collected from active children, the update
itself filters on `_id` only). -/
def markFoldersDeleted (now : Nat) (ids : List Nat) (db : DB) : DB :=
  { db with folders := db.folders.map (fun f =>
      if f.fid ∈ ids then markFolder now f else f) }

/-- The `UpdateMany {folder_id, is_deleted: false}` write of
`softDeleteFiles`. -/
def markFilesDeleted (now : Nat) (folderId : Nat) (db : DB) : DB :=
  { db with files := db.files.map (fun f =>
      if f.folderId = some folderId ∧ f.isDeleted = false then markFile now f else f) }

/-- The `Find {parent_id, is_deleted: false}` query of
`softDeleteSubfolders`. -/
def activeChildren (db : DB) (pid : Nat) : List Folder :=
  db.folders.filter (fun f => f.parentId == some pid && f.isDeleted == false)

/-- State threaded through a Mongo transaction: the database as seen by
the session plus a write counter used for fault injection. -/
structure TxState where
  db : DB
  writeCount : Nat
  deriving Repr, DecidableEq

/-- Perform one database write inside a transaction; `fail` says which
write (by index) is hit by an injected fault. -/
def doWrite (fail : Nat → Bool) (st : TxState) (f : DB → DB) :
    Except String TxState :=
  if fail st.writeCount then .error "write failed"
  else .ok ⟨f st.db, st.writeCount + 1⟩

/-- The per-child loop of `softDeleteSubfolders`: recurse into the
child, then soft-delete the files directly inside it. -/
def processChildren (fail : Nat → Bool) (now : Nat)
    (recur : Nat → TxState → Except String TxState) :
    List Nat → TxState → Except String TxState
  | [], st => .ok st
  | c :: rest, st =>
    match recur c st with
    | .error e => .error e
    | .ok st1 =>
      match doWrite fail st1 (markFilesDeleted now c) with
      | .error e => .error e
      | .ok st2 => processChildren fail now recur rest st2

/-- `softDeleteSubfolders`: collect the active children of `pid`, bulk
mark them, then recurse into each child and soft-delete its files.
`fuel` bounds the recursion depth of the Go implementation. -/
def softDeleteSubfolders (fail : Nat → Bool) (now : Nat) :
    Nat → Nat → TxState → Except String TxState
  | 0, _, _ => .error "recursion limit"
  | fuel+1, pid, st =>
    if ((activeChildren st.db pid).map Folder.fid).isEmpty then .ok st
    else
      match doWrite fail st
          (markFoldersDeleted now ((activeChildren st.db pid).map Folder.fid)) with
      | .error e => .error e
      | .ok st1 =>
        processChildren fail now (softDeleteSubfolders fail now fuel)
          ((activeChildren st.db pid).map Folder.fid) st1

/-- The transaction callback of `DeleteFolder`: mark the root folder
(erroring when it matched nothing), cascade into the subfolders, then
soft-delete the files directly inside the root. -/
def deleteFolderCallback (fail : Nat → Bool) (now fuel : Nat)
    (folderId : Nat) (st : TxState) : Except String TxState :=
  if (st.db.folders.find? (fun f =>
      f.fid == folderId && f.isDeleted == false)).isNone then
    .error "folder not found or already deleted"
  else
    match doWrite fail st (markTopFolder now folderId) with
    | .error e => .error e
    | .ok st1 =>
      match softDeleteSubfolders fail now fuel folderId st1 with
      | .error e => .error e
      | .ok st2 => doWrite fail st2 (markFilesDeleted now folderId)

/-- `DeleteFolder`: admin permission check, existence check, then the
transactional cascade; a callback error aborts the transaction, so the
caller keeps the original database. -/
def deleteFolder (fail : Nat → Bool) (fuel : Nat) (db : DB)
    (folderId userId now : Nat) : DB × Option String :=
  match hasFolderPermission fuel db userId folderId "admin" with
  | .error e => (db, some ("permission check failed: " ++ e))
  | .ok false => (db, some "insufficient permissions")
  | .ok true =>
    match db.folders.find? (fun f =>
        f.fid == folderId && f.isDeleted == false) with
    | none => (db, some "folder not found or already deleted")
    | some _ =>
      match deleteFolderCallback fail now fuel folderId ⟨db, 0⟩ with
      | .error e => (db, some e)
      | .ok st => (st.db, none)

/-- The `$unset {deleted_at}` update applied by the restore paths to a
folder record: note it leaves `is_deleted` untouched. -/
def unsetFolderDeletedAt (f : Folder) : Folder := { f with deletedAt := none }

/-- The `$unset {deleted_at}` update applied by the restore paths to a
file record: note it leaves `is_deleted` untouched. -/
def unsetFileDeletedAt (f : File) : File := { f with deletedAt := none }

/-- `RestoreFile`: find the file in trash (owned, `deleted_at` set),
check the folder referenced by the file's `parent_id` field — not its
`folder_id` field — is live when that field is set, then unset
`deleted_at` on the file. -/
def restoreFile (db : DB) (fileId userId : Nat) : DB × Option String :=
  match db.files.find? (fun f => f.fid == fileId && f.ownerId == userId &&
      f.deletedAt != none) with
  | none => (db, some "file not found in trash")
  | some file =>
    let parentLive : Bool :=
      match file.parentId with
      | none => true
      | some p => (db.folders.find? (fun g => g.fid == p &&
          g.ownerId == userId && g.deletedAt == none)).isSome
    if parentLive then
      ({ db with files := db.files.map (fun f =>
          if f.fid = fileId ∧ f.ownerId = userId then unsetFileDeletedAt f
          else f) }, none)
    else
      (db, some "cannot restore file: parent folder no longer exists or is deleted")

/-- `RestoreFolder`: find the folder in trash, require its parent folder
(when it has one) to be live, then in one transaction unset `deleted_at`
on the folder, on every folder whose path extends `folder.path ++ "/"`,
and on every file whose relative path extends it. -/
def restoreFolder (db : DB) (folderId userId : Nat) : DB × Option String :=
  match db.folders.find? (fun f => f.fid == folderId &&
      f.ownerId == userId && f.deletedAt != none) with
  | none => (db, some "folder not found in trash")
  | some folder =>
    let parentLive : Bool :=
      match folder.parentId with
      | none => true
      | some p => (db.folders.find? (fun g => g.fid == p &&
          g.ownerId == userId && g.deletedAt == none)).isSome
    if parentLive then
      let pathPre := folder.path ++ "/"
      ({ db with
          folders := db.folders.map (fun f =>
            if (f.fid = folderId ∧ f.ownerId = userId) ∨
               (f.path.startsWith pathPre ∧ f.ownerId = userId) then
              unsetFolderDeletedAt f else f),
          files := db.files.map (fun f =>
            if f.relativePath.startsWith pathPre ∧ f.ownerId = userId then
              unsetFileDeletedAt f else f) }, none)
    else
      (db, some "cannot restore folder: parent folder no longer exists or is deleted")

/-- Trash database for the restore-parent check: folder 1 is
soft-deleted and file 2 sits inside it (`folderId = some 1`), was
soft-deleted with it, and has the `parent_id` field unset — which is the
only state the upload path ever produces, since uploads populate
`folder_id` and nothing ever writes `parent_id` on files. -/
def trashDB : DB :=
  { folders := [{ fid := 1, name := "G", parentId := none, ownerId := 7,
                  path := "G", isDeleted := true, deletedAt := some 5 }],
    files := [{ fid := 2, name := "f.txt", size := 3, folderId := some 1,
                parentId := none, ownerId := 7, relativePath := "G/f.txt",
                isDeleted := true, deletedAt := some 5 }],
    permissions := [], shares := [], users := [], nextId := 10 }

/-- Single active folder owned by user 7, used for the delete/restore
round trip. -/
def rtDB : DB :=
  { folders := [{ fid := 1, name := "A", parentId := none, ownerId := 7,
                  path := "A", isDeleted := false, deletedAt := none }],
    files := [], permissions := [], shares := [], users := [], nextId := 10 }

/-- Fault oracle that never injects a write failure. -/
def noFail : Nat → Bool := fun _ => false

/-- Evolution of one folder record within a delete cascade: it is
either untouched or stamped with the cascade timestamp. -/
def folderEvolves (now : Nat) (a b : Folder) : Prop :=
  b = a ∨ b = markFolder now a

/-- Evolution of one file record within a delete cascade. -/
def fileEvolves (now : Nat) (a b : File) : Prop :=
  b = a ∨ b = markFile now a

/-- Evolution of the whole database within a delete cascade: folders and
files evolve pointwise and nothing else changes. -/
def dbEvolves (now : Nat) (d d2 : DB) : Prop :=
  List.Forall₂ (folderEvolves now) d.folders d2.folders ∧
  List.Forall₂ (fileEvolves now) d.files d2.files ∧
  d2.permissions = d.permissions ∧ d2.shares = d.shares ∧
  d2.users = d.users ∧ d2.nextId = d.nextId

/-- In database `d`, every folder record claiming `q` as parent is
soft-deleted. -/
def foldersDone (d : DB) (q : Nat) : Prop :=
  ∀ f ∈ d.folders, f.parentId = some q → f.isDeleted = true

/-- In database `d`, every file record inside folder `q` is
soft-deleted. -/
def filesDone (d : DB) (q : Nat) : Prop :=
  ∀ f ∈ d.files, f.folderId = some q → f.isDeleted = true

/-- Folder id `q` is fully handled by the cascade: its child folders and
its files are all soft-deleted. -/
def handled (d : DB) (q : Nat) : Prop := foldersDone d q ∧ filesDone d q

/-- Every folder record with id `x` is soft-deleted in `d`. -/
def deadAll (d : DB) (x : Nat) : Prop :=
  ∀ f ∈ d.folders, f.fid = x → f.isDeleted = true

/-- Some folder record with id `q` carries the cascade timestamp in `d`. -/
def markedNowId (now : Nat) (d : DB) (q : Nat) : Prop :=
  ∃ y ∈ d.folders, y.deletedAt = some now ∧ y.fid = q

/-- Cascade invariant: every folder record stamped with the cascade
timestamp either still awaits processing (its id is in `S`) or is fully
handled. -/
def pendingSafe (now : Nat) (d : DB) (S : List Nat) : Prop :=
  ∀ f ∈ d.folders, f.deletedAt = some now → f.fid ∈ S ∨ handled d f.fid

/-- A downward path of folder records under root id `x`: each record is
present, active, and a child of the previous one. -/
def subPathOk (d : DB) : Nat → List Folder → Bool
  | _, [] => true
  | x, c :: rest =>
    d.folders.contains c && !c.isDeleted && c.parentId == some x &&
      subPathOk d c.fid rest

/-- The cascade-marking predicate is decidable, so witnesses can be
checked by evaluation. -/
instance markedNowIdDec (now : Nat) (d : DB) (q : Nat) :
    Decidable (markedNowId now d q) :=
  decidable_of_iff (∃ y ∈ d.folders, y.deletedAt = some now ∧ y.fid = q)
    Iff.rfl

/-- Folder B, child of the cascade-witness root folder A. -/
def casB : Folder :=
  { fid := 2, name := "B", parentId := some 1, ownerId := 7,
    path := "A/B", isDeleted := false, deletedAt := none }

/-- Folder C, child of B in the cascade-witness database. -/
def casC : Folder :=
  { fid := 3, name := "C", parentId := some 2, ownerId := 7,
    path := "A/B/C", isDeleted := false, deletedAt := none }

/-- File inside the grandchild folder C of the cascade witness. -/
def casFile : File :=
  { fid := 11, name := "d.txt", size := 1, folderId := some 3,
    parentId := none, ownerId := 7, relativePath := "A/B/C/d.txt",
    isDeleted := false, deletedAt := none }

/-- Cascade-witness database: root folder A (id 1) with child B,
grandchild C, a file in A and a file in C, all owned by user 7. -/
def casDB : DB :=
  { folders := [{ fid := 1, name := "A", parentId := none, ownerId := 7,
                  path := "A", isDeleted := false, deletedAt := none },
                casB, casC],
    files := [{ fid := 10, name := "r.txt", size := 1, folderId := some 1,
                parentId := none, ownerId := 7, relativePath := "A/r.txt",
                isDeleted := false, deletedAt := none }, casFile],
    permissions := [], shares := [], users := [], nextId := 50 }

/-- Resource type of a share request; the HTTP layer validates the
string field to be one of `file` or `folder`. -/
inductive RType
  | file
  | folder
  deriving Repr, DecidableEq

/-- The string stored in share and permission documents for a request
resource type. -/
def rtStr : RType → String
  | .file => "file"
  | .folder => "folder"

/-- User lookup by email (`FindOne {email}`). -/
def findUserByEmail (db : DB) (email : String) : Option User :=
  db.users.find? (fun w => w.email == email)

/-- User lookup by id (`FindOne {_id}`). -/
def findUserById (db : DB) (uid : Nat) : Option User :=
  db.users.find? (fun w => w.uid == uid)

/-- `validateSharePermission`: admin-level check on the resource through
the permission resolver, dispatched on the resource type. -/
def validateSharePermission (fuel : Nat) (db : DB) (rt : RType)
    (rid sharer : Nat) : Except String Bool :=
  match rt with
  | .folder => hasFolderPermission fuel db sharer rid "admin"
  | .file => hasFilePermission fuel db sharer rid "admin"

/-- `ShareFolder` of the permission service: role validation, target
user existence, admin check for the granter, self-share rejection, then
insert of a fresh active grant or reactivating update of the existing
permission document for (user, folder). -/
def shareFolderGrant (gfuel : Nat) (db : DB) (folderId targetId : Nat)
    (role : String) (sharerId now : Nat) : Except String DB :=
  if !isValidRole role then .error "invalid role"
  else
    match findUserById db targetId with
    | none => .error "user not found"
    | some _ =>
      match hasFolderPermission gfuel db sharerId folderId "admin" with
      | .error e => .error ("permission check failed: " ++ e)
      | .ok false => .error "insufficient permissions to share folder"
      | .ok true =>
        if targetId = sharerId then .error "cannot share with yourself"
        else
          match db.permissions.find? (fun p => p.userId == targetId &&
              p.resourceId == folderId && p.resourceType == "folder") with
          | none =>
            .ok { db with
                    permissions := db.permissions ++
                      [{ pid := db.nextId, userId := targetId, role := role,
                         resourceId := folderId, resourceType := "folder",
                         grantedBy := sharerId, grantedAt := now,
                         isActive := true }],
                    nextId := db.nextId + 1 }
          | some ex =>
            .ok { db with
                    permissions := db.permissions.map (fun p =>
                      if p.pid = ex.pid then
                        { p with role := role, grantedBy := sharerId,
                                 grantedAt := now, isActive := true }
                      else p) }

/-- `ShareFile` of the permission service, the file-resource analogue of
`shareFolderGrant`. -/
def shareFileGrant (gfuel : Nat) (db : DB) (fileId targetId : Nat)
    (role : String) (sharerId now : Nat) : Except String DB :=
  if !isValidRole role then .error "invalid role"
  else
    match findUserById db targetId with
    | none => .error "user not found"
    | some _ =>
      match hasFilePermission gfuel db sharerId fileId "admin" with
      | .error e => .error ("permission check failed: " ++ e)
      | .ok false => .error "insufficient permissions to share file"
      | .ok true =>
        if targetId = sharerId then .error "cannot share with yourself"
        else
          match db.permissions.find? (fun p => p.userId == targetId &&
              p.resourceId == fileId && p.resourceType == "file") with
          | none =>
            .ok { db with
                    permissions := db.permissions ++
                      [{ pid := db.nextId, userId := targetId, role := role,
                         resourceId := fileId, resourceType := "file",
                         grantedBy := sharerId, grantedAt := now,
                         isActive := true }],
                    nextId := db.nextId + 1 }
          | some ex =>
            .ok { db with
                    permissions := db.permissions.map (fun p =>
                      if p.pid = ex.pid then
                        { p with role := role, grantedBy := sharerId,
                                 grantedAt := now, isActive := true }
                      else p) }

/-- Per-child loop of `shareChildFoldersRecursively`: for each child
folder id, insert a share record, write the grant through the permission
service (deleting the share again and skipping the child when the grant
write fails), count the child, and recurse into grandchildren. -/
def shareChildrenLoop (recur : Nat → DB → DB × Nat)
    (now targetId : Nat) (role : String) (sharerId gfuel : Nat) :
    List Nat → DB → DB × Nat
  | [], db => (db, 0)
  | c :: rest, db =>
    let sh : Share :=
      { sid := db.nextId, resourceId := c, resourceType := "folder",
        sharedWith := targetId, sharedBy := sharerId, role := role,
        sharedAt := now, isActive := true }
    let db1 : DB :=
      { db with shares := db.shares ++ [sh], nextId := db.nextId + 1 }
    match shareFolderGrant gfuel db1 c targetId role sharerId now with
    | .error _ =>
      let db2 : DB :=
        { db1 with shares := db1.shares.filter (fun s => s.sid != sh.sid) }
      shareChildrenLoop recur now targetId role sharerId gfuel rest db2
    | .ok db2 =>
      let res1 := recur c db2
      let res2 := shareChildrenLoop recur now targetId role sharerId gfuel
        rest res1.1
      (res2.1, 1 + res1.2 + res2.2)

/-- `shareChildFoldersRecursively`: apply the share to every non-deleted
direct child folder (filter `{parent_id, is_deleted: false}`) and
recurse, returning the count of child folders affected. -/
def shareChildFolders (now targetId : Nat) (role : String)
    (sharerId gfuel : Nat) : Nat → Nat → DB → DB × Nat
  | 0, _, db => (db, 0)
  | cfuel+1, parentId, db =>
    shareChildrenLoop (shareChildFolders now targetId role sharerId gfuel cfuel)
      now targetId role sharerId gfuel
      ((db.folders.filter (fun f => f.parentId == some parentId &&
          f.isDeleted == false)).map Folder.fid) db

/-- `getResourceName`: resource lookup by `_id` only (no deleted
filter), returning the display name. -/
def resourceName (db : DB) (rt : RType) (rid : Nat) : Option String :=
  match rt with
  | .folder => (db.folders.find? (fun f => f.fid == rid)).map Folder.name
  | .file => (db.files.find? (fun f => f.fid == rid)).map File.name

/-- The grant write of `ShareResource`: dispatch to `ShareFolder` or
`ShareFile` of the permission service; `grantFails` injects a write
failure. -/
def grantStep (grantFails : Bool) (gfuel : Nat) (db1 : DB) (rt : RType)
    (rid targetUid : Nat) (role : String) (sharerId now : Nat) :
    Except String DB :=
  if grantFails then .error "injected grant failure"
  else
    match rt with
    | .folder => shareFolderGrant gfuel db1 rid targetUid role sharerId now
    | .file => shareFileGrant gfuel db1 rid targetUid role sharerId now

/-- The child-propagation step of `ShareResource`: when the resource is
a folder and `inheritToChildren` was requested, recursively share every
child folder and return the affected count. -/
def inheritStep (gfuel cfuel : Nat) (db2 : DB) (rt : RType) (inherit : Bool)
    (rid targetUid : Nat) (role : String) (sharerId now : Nat) :
    DB × Except String Nat :=
  match rt, inherit with
  | .folder, true =>
    ((shareChildFolders now targetUid role sharerId gfuel cfuel rid db2).1,
     .ok (shareChildFolders now targetUid role sharerId gfuel cfuel rid db2).2)
  | _, _ => (db2, .ok 0)

/-- `ShareResource`: admin validation, grantee resolution by email,
duplicate-active-share check, resource/sharer lookups, then insertion of
the share record followed by the grant write through the permission
service — with a compensating delete of the share record if the grant
write fails — and finally the optional recursive propagation to child
folders.  `grantFails` injects a failure into the grant write. -/
def shareResource (grantFails : Bool) (fuel gfuel cfuel : Nat) (db : DB)
    (rt : RType) (rid : Nat) (email role : String) (inherit : Bool)
    (sharerId now : Nat) : DB × Except String Nat :=
  match validateSharePermission fuel db rt rid sharerId with
  | .error e => (db, .error ("permission validation failed: " ++ e))
  | .ok hasPerm =>
    if !hasPerm then (db, .error "insufficient permissions to share resource")
    else
      match findUserByEmail db email with
      | none => (db, .error "user with email not found")
      | some target =>
        match db.shares.find? (fun s => s.resourceId == rid &&
            s.resourceType == rtStr rt && s.sharedWith == target.uid &&
            s.isActive) with
        | some _ => (db, .error "resource already shared with this user")
        | none =>
          match resourceName db rt rid with
          | none => (db, .error "failed to get resource name")
          | some _ =>
            match findUserById db sharerId with
            | none => (db, .error "failed to get sharer info")
            | some _ =>
              let sh : Share :=
                { sid := db.nextId, resourceId := rid,
                  resourceType := rtStr rt, sharedWith := target.uid,
                  sharedBy := sharerId, role := role, sharedAt := now,
                  isActive := true }
              let db1 : DB :=
                { db with shares := db.shares ++ [sh],
                          nextId := db.nextId + 1 }
              match grantStep grantFails gfuel db1 rt rid target.uid
                  role sharerId now with
              | .error e =>
                ({ db1 with shares := db1.shares.filter (fun s => s.sid != sh.sid) },
                 .error ("failed to grant permission: " ++ e))
              | .ok db2 =>
                inheritStep gfuel cfuel db2 rt inherit rid target.uid role
                  sharerId now

/-- The `UpdateMany` body of `RevokeFolderPermission` /
`RevokeFilePermission`: deactivate every active grant matching the
(user, resource, resource type) key, leaving all fields but the active
flag alone. -/
def deactivateGrant (rid tgt : Nat) (rty : String) (p : Permission) :
    Permission :=
  if p.userId = tgt ∧ p.resourceId = rid ∧ p.resourceType = rty ∧
     p.isActive = true then
    { p with isActive := false }
  else p

/-- `RevokeFolderPermission`: admin check for the revoker, owner-target
rejection, then deactivation of the active grants for the target on the
folder (erroring when none matched). -/
def revokeFolderPermission (fuel : Nat) (db : DB)
    (folderId targetId revokerId : Nat) : Except String DB :=
  match hasFolderPermission fuel db revokerId folderId "admin" with
  | .error e => .error ("permission check failed: " ++ e)
  | .ok false => .error "insufficient permissions to revoke access"
  | .ok true =>
    match db.folders.find? (fun f => f.fid == folderId &&
        f.deletedAt == none) with
    | none => .error "folder not found"
    | some folder =>
      if folder.ownerId = targetId then
        .error "cannot revoke owner's permissions"
      else if !(db.permissions.any (fun p => p.userId == targetId &&
          p.resourceId == folderId && p.resourceType == "folder" &&
          p.isActive)) then
        .error "no active permission found to revoke"
      else
        .ok { db with permissions :=
                db.permissions.map (deactivateGrant folderId targetId "folder") }

/-- `RevokeFilePermission`, the file analogue of
`revokeFolderPermission`. -/
def revokeFilePermission (fuel : Nat) (db : DB)
    (fileId targetId revokerId : Nat) : Except String DB :=
  match hasFilePermission fuel db revokerId fileId "admin" with
  | .error e => .error ("permission check failed: " ++ e)
  | .ok false => .error "insufficient permissions to revoke access"
  | .ok true =>
    match db.files.find? (fun f => f.fid == fileId &&
        f.deletedAt == none) with
    | none => .error "file not found"
    | some file =>
      if file.ownerId = targetId then
        .error "cannot revoke owner's permissions"
      else if !(db.permissions.any (fun p => p.userId == targetId &&
          p.resourceId == fileId && p.resourceType == "file" &&
          p.isActive)) then
        .error "no active permission found to revoke"
      else
        .ok { db with permissions :=
                db.permissions.map (deactivateGrant fileId targetId "file") }

/-- The `validateSharePermission` dispatch on a stored share record's
resource-type string. -/
def validateByTypeStr (fuel : Nat) (db : DB) (tyStr : String)
    (rid uid : Nat) : Except String Bool :=
  if tyStr == "folder" then hasFolderPermission fuel db uid rid "admin"
  else hasFilePermission fuel db uid rid "admin"

/-- The permission-service revoke dispatch on a stored share record's
resource-type string. -/
def revokeByTypeStr (fuel : Nat) (db : DB) (tyStr : String)
    (rid tgt rvk : Nat) : Except String DB :=
  if tyStr == "folder" then revokeFolderPermission fuel db rid tgt rvk
  else revokeFilePermission fuel db rid tgt rvk

/-- `RevokePermission` of the share service: look up the active share by
id, authorize the revoker (admin on the resource or original sharer),
revoke the grant through the permission service, then deactivate the one
share record. -/
def revokePermission (fuel : Nat) (db : DB) (shareId revokerId : Nat) :
    DB × Option String :=
  match db.shares.find? (fun s => s.sid == shareId && s.isActive) with
  | none => (db, some "share not found")
  | some sh =>
    match validateByTypeStr fuel db sh.resourceType sh.resourceId revokerId with
    | .error e => (db, some ("permission validation failed: " ++ e))
    | .ok hasPerm =>
      if !hasPerm && sh.sharedBy != revokerId then
        (db, some "insufficient permissions to revoke access")
      else
        match revokeByTypeStr fuel db sh.resourceType sh.resourceId
            sh.sharedWith revokerId with
        | .error e => (db, some ("failed to revoke permission: " ++ e))
        | .ok db2 =>
          ({ db2 with shares := db2.shares.map (fun s =>
              if s.sid = shareId then { s with isActive := false } else s) },
           none)

/-- Service database shared by the sharing witnesses: user 9 owns
folder 1 ("Docs") and its subfolder 2 ("Docs/Sub"); user 5 is another
account. -/
def svcDB : DB :=
  { folders := [{ fid := 1, name := "Docs", parentId := none, ownerId := 9,
                  path := "Docs", isDeleted := false, deletedAt := none },
                { fid := 2, name := "Sub", parentId := some 1, ownerId := 9,
                  path := "Docs/Sub", isDeleted := false, deletedAt := none }],
    files := [],
    permissions := [],
    shares := [],
    users := [{ uid := 9, email := "a@x.io", firstName := "A", lastName := "A",
                usedStorage := 0 },
              { uid := 5, email := "b@x.io", firstName := "B", lastName := "B",
                usedStorage := 0 }],
    nextId := 100 }

/-- The database after sharing folder 1 ("Docs") with user 5 by email,
role editor, with inheritance into children: this writes the top-level
share (sid 100) and grant (pid 101) on folder 1, plus a separate share
(sid 102) and grant (pid 103) on the child folder 2. -/
def c10Shared : DB :=
  (shareResource false 3 3 3 svcDB .folder 1 "b@x.io" "editor" true 9 0).1

/-- The database after revoking the top-level share (sid 100) on
`c10Shared`. -/
def c10After : DB := (revokePermission 3 c10Shared 100 9).1

/-- C1: Owner supremacy — for a live folder and a live file owned by
`u`, `HasFolderPermission` and `HasFilePermission` return true for every
required role, irrespective of the grant records in the database. -/
theorem owner_supremacy (fuel : Nat) (db : DB) (u fid gid : Nat) (r : String)
    (folder : Folder) (file : File)
    (hf : findFolder db fid = some folder) (hof : folder.ownerId = u)
    (hg : findFile db gid = some file) (hog : file.ownerId = u) :
    hasFolderPermission (fuel+1) db u fid r = .ok true ∧
    hasFilePermission fuel db u gid r = .ok true := by
  constructor
  · simp [hasFolderPermission, hf, hof]
  · simp [hasFilePermission, hg, hog]

/-- Witness for C1 at a concrete database with zero grant records. -/
theorem owner_supremacy_witness :
    hasFolderPermission 1 ownerDB 7 1 "admin" = .ok true ∧
    hasFilePermission 0 ownerDB 7 2 "admin" = .ok true := by
  have h := owner_supremacy 0 ownerDB 7 1 2 "admin"
    { fid := 1, name := "A", parentId := none, ownerId := 7,
      path := "A", isDeleted := false, deletedAt := none }
    { fid := 2, name := "doc.txt", size := 10, folderId := none,
      parentId := none, ownerId := 7, relativePath := "doc.txt",
      isDeleted := false, deletedAt := none }
    (by decide) (by decide) (by decide) (by decide)
  exact h

/-- C2: Inheritance correctness — when ancestor `A` holds an active
grant of role `R` for user `u` and `rank r ≤ rank R`, the resolver
returns true on every folder whose live parent chain reaches `A`
(whatever other grants sit on the intermediate folders, so in particular
when none of them carries a more specific active grant); and a
permission check on a file that belongs to a folder always recurses into
that folder, hence into its whole parent chain. -/
theorem inheritance_correctness
    (db : DB) (u A : Nat) (r R : String) (p : Permission)
    (hfind : db.permissions.find? (fun q => q.userId == u &&
        q.resourceId == A && q.resourceType == "folder") = some p)
    (_hact : p.isActive = true) (hrole : p.role = R)
    (hrank : hasRequiredRole R r = true) :
    (∀ (F : Nat) (rest : List Nat) (fuel : Nat),
        chainOk db (F :: rest) = true → lastId (F :: rest) = some A →
        rest.length + 1 ≤ fuel →
        hasFolderPermission fuel db u F r = .ok true) ∧
    (∀ (fuel fid g : Nat) (file : File),
        findFile db fid = some file → file.ownerId ≠ u →
        file.folderId = some g →
        hasFilePermission fuel db u fid r = hasFolderPermission fuel db u g r) := by
  constructor
  · intro F rest
    induction rest generalizing F with
    | nil =>
      intro fuel hchain hlast hfuel
      obtain ⟨n, rfl⟩ : ∃ n, fuel = n + 1 :=
        ⟨fuel - 1, (Nat.succ_pred_eq_of_pos (by omega)).symm⟩
      simp only [chainOk, Option.isSome_iff_exists] at hchain
      obtain ⟨folder, hff⟩ := hchain
      simp only [lastId, Option.some.injEq] at hlast
      subst hlast
      simp only [hasFolderPermission, hff]
      by_cases how : folder.ownerId = u
      · simp [how]
      · have hcd : checkDirectPermission db u F "folder" r = true := by
          simp only [checkDirectPermission, hfind, hrole]
          exact hrank
        simp [how, hcd]
    | cons y rest ih =>
      intro fuel hchain hlast hfuel
      obtain ⟨n, rfl⟩ : ∃ n, fuel = n + 1 :=
        ⟨fuel - 1, (Nat.succ_pred_eq_of_pos (by omega)).symm⟩
      simp only [chainOk] at hchain
      cases hff : findFolder db F with
      | none => rw [hff] at hchain; simp at hchain
      | some folder =>
        rw [hff] at hchain
        simp only [Bool.and_eq_true, beq_iff_eq] at hchain
        obtain ⟨hpar, hrest⟩ := hchain
        simp only [lastId] at hlast
        simp only [hasFolderPermission, hff]
        by_cases how : folder.ownerId = u
        · simp [how]
        · by_cases hcd : checkDirectPermission db u F "folder" r = true
          · simp [how, hcd]
          · have hrec := ih y n hrest hlast (by simp at hfuel; omega)
            simp only [Bool.not_eq_true] at hcd
            simp [how, hcd, hpar, hrec]
  · intro fuel fid g file hfile hown hfol
    simp [hasFilePermission, hfile, hown, hfol]

/-- Witness for C2: user 5 gets viewer access on folder C and the check
on the file inside C reduces to the folder-chain check, with the only
grant row sitting on ancestor A. -/
theorem inheritance_correctness_witness :
    hasFolderPermission 3 inhDB 5 3 "viewer" = .ok true ∧
    hasFilePermission 3 inhDB 5 4 "viewer" =
      hasFolderPermission 3 inhDB 5 3 "viewer" := by
  have h := inheritance_correctness inhDB 5 1 "viewer" "editor" inhGrant
    (by decide) (by decide) (by decide) (by decide)
  exact ⟨h.1 3 [2, 1] 3 (by decide) (by decide) (by decide),
         h.2 3 4 3 inhFile (by decide) (by decide) (by decide)⟩

/-- C3 counterexample: the nearest active grant on folder F is the
viewer grant, whose rank is below editor, yet the resolver still grants
an editor check on F by consulting the admin grant on the ancestor — so
the nearest grant does not alone determine the outcome. -/
theorem nearest_grant_counterexample :
    ngDB.permissions.find? (fun p => p.userId == 5 && p.resourceId == 2 &&
        p.resourceType == "folder") =
      some { pid := 60, userId := 5, role := "viewer", resourceId := 2,
             resourceType := "folder", grantedBy := 9, grantedAt := 0,
             isActive := true } ∧
    hasRequiredRole "viewer" "editor" = false ∧
    hasFolderPermission 2 ngDB 5 2 "editor" = .ok true := by decide

/-- C3 amended: a direct grant on the folder takes precedence only when
it suffices — if the folder's own grant meets the required rank the walk
stops with a grant, but when the direct check fails the resolver
consults the parent chain, so an insufficient nearer grant does not mask
a sufficient ancestor grant. -/
theorem nearest_grant_amended (db : DB) (u F p : Nat) (r : String)
    (fuel : Nat) (folder : Folder)
    (hf : findFolder db F = some folder) (hown : folder.ownerId ≠ u) :
    (checkDirectPermission db u F "folder" r = true →
      hasFolderPermission (fuel+1) db u F r = .ok true) ∧
    (checkDirectPermission db u F "folder" r = false →
      folder.parentId = some p →
      hasFolderPermission (fuel+1) db u F r =
        hasFolderPermission fuel db u p r) := by
  constructor
  · intro hcd
    simp [hasFolderPermission, hf, hown, hcd]
  · intro hcd hpar
    simp [hasFolderPermission, hf, hown, hcd, hpar]

/-- Witness for the amended C3 on the nearest-grant database: the viewer
check is settled by the direct viewer grant on F, while the editor check
falls through to the parent folder. -/
theorem nearest_grant_amended_witness :
    hasFolderPermission 2 ngDB 5 2 "viewer" = .ok true ∧
    hasFolderPermission 2 ngDB 5 2 "editor" =
      hasFolderPermission 1 ngDB 5 1 "editor" := by
  have h1 := nearest_grant_amended ngDB 5 2 1 "viewer" 1 ngF
    (by decide) (by decide)
  have h2 := nearest_grant_amended ngDB 5 2 1 "editor" 1 ngF
    (by decide) (by decide)
  exact ⟨h1.1 (by decide), h2.2 (by decide) (by decide)⟩

/-- C9 counterexample: an upload of 101 bytes takes user 42 from
1999999999 to 2000000100 used bytes; the code accepts it (2000000100 is
below the 2 GiB constant) and performs the storage write, where the
claim says it is rejected before any storage write. -/
theorem quota_counterexample :
    ((1999999999 : Int) + 101 = 2000000100) ∧
    (uploadFiles quotaDB 42 [("a.bin", 101)]).result = .ok () ∧
    (uploadFiles quotaDB 42 [("a.bin", 101)]).storageWrites = 1 ∧
    checkStorageQuota quotaDB 42 101 = .ok true := by decide

/-- C9 amended: the upload gate runs before any storage write and
accepts exactly when the user's used storage plus the upload size stays
within `2 * 1024 * 1024 * 1024` bytes (2 GiB, the code's "2GB" cap) and
every file respects the 100 MiB per-file limit; the example upload
reaching 2000000100 bytes is therefore accepted, not rejected. -/
theorem quota_enforcement (db : DB) (u : Nat)
    (uploads : List (String × Int)) (w : User)
    (hw : db.users.find? (fun x => x.uid == u) = some w)
    (hne : uploads.isEmpty = false)
    (hsz : uploads.any (fun fs => decide (maxFileSize < fs.2)) = false) :
    (maxUserStorage < w.usedStorage + (uploads.map Prod.snd).sum →
      (uploadFiles db u uploads).result =
          .error "upload would exceed storage limit of 2GB" ∧
        (uploadFiles db u uploads).storageWrites = 0 ∧
        (uploadFiles db u uploads).db = db) ∧
    (w.usedStorage + (uploads.map Prod.snd).sum ≤ maxUserStorage →
      (uploadFiles db u uploads).result = .ok () ∧
        (uploadFiles db u uploads).storageWrites = uploads.length) ∧
    checkStorageQuota db u (uploads.map Prod.snd).sum =
      .ok (decide (w.usedStorage + (uploads.map Prod.snd).sum ≤ maxUserStorage)) := by
  refine ⟨?_, ?_, ?_⟩
  · intro hover
    simp [uploadFiles, hne, hw, hsz, hover]
  · intro hunder
    have hcond : decide (maxUserStorage <
        w.usedStorage + (uploads.map Prod.snd).sum) = false := by
      simp only [decide_eq_false_iff_not, not_lt]
      exact hunder
    simp [uploadFiles, hne, hw, hsz, hcond]
  · simp [checkStorageQuota, hw]

/-- Witness for the amended C9: on the counterexample database the
101-byte upload is accepted with one storage write, while a batch of
two 100 MiB uploads (which would exceed the 2 GiB constant) is rejected
with zero storage writes. -/
theorem quota_enforcement_witness :
    ((uploadFiles quotaDB 42 [("a.bin", 101)]).result = .ok () ∧
      (uploadFiles quotaDB 42 [("a.bin", 101)]).storageWrites = 1) ∧
    ((uploadFiles quotaDB 42 [("b1.bin", 104857600), ("b2.bin", 104857600)]).result =
        .error "upload would exceed storage limit of 2GB" ∧
      (uploadFiles quotaDB 42
        [("b1.bin", 104857600), ("b2.bin", 104857600)]).storageWrites = 0) := by
  have h1 := quota_enforcement quotaDB 42 [("a.bin", 101)]
    { uid := 42, email := "u@x.io", firstName := "U", lastName := "X",
      usedStorage := 1999999999 } (by decide) (by decide) (by decide)
  have h2 := quota_enforcement quotaDB 42
    [("b1.bin", 104857600), ("b2.bin", 104857600)]
    { uid := 42, email := "u@x.io", firstName := "U", lastName := "X",
      usedStorage := 1999999999 } (by decide) (by decide) (by decide)
  refine ⟨?_, ?_⟩
  · have := h1.2.1 (by decide)
    exact ⟨this.1, this.2⟩
  · have := h2.1 (by decide)
    exact ⟨this.1, this.2.1⟩

/-- C5: `RestoreFile` guards the restore on the file's never-populated
`parent_id` field instead of its `folder_id` field, so restoring a file
whose containing folder is still soft-deleted succeeds: the call returns
no error, clears the file's `deleted_at`, and leaves the containing
folder soft-deleted — instead of rejecting with a Conflict-class error
and leaving the file in trash. -/
theorem restore_live_parent_bug :
    (restoreFile trashDB 2 7).2 = none ∧
    (restoreFile trashDB 2 7).1.files =
      [{ fid := 2, name := "f.txt", size := 3, folderId := some 1,
         parentId := none, ownerId := 7, relativePath := "G/f.txt",
         isDeleted := true, deletedAt := none }] ∧
    (restoreFile trashDB 2 7).1.folders = trashDB.folders ∧
    (trashDB.folders.find? (fun g => g.fid == 1)).map Folder.deletedAt =
      some (some 5) := by decide

/-- C6: after Delete then Restore of folder 1, the record keeps its
name, path and owner and `deleted_at` is cleared, but `is_deleted`
remains true because `RestoreFolder` only unsets `deleted_at` — so the
folder is not back in the Active state: a second `DeleteFolder` (which
filters on `is_deleted: false`, as does rename) now fails with "folder
not found or already deleted". -/
theorem delete_restore_roundtrip_bug :
    (deleteFolder noFail 3 rtDB 1 7 99).2 = none ∧
    (restoreFolder (deleteFolder noFail 3 rtDB 1 7 99).1 1 7).2 = none ∧
    (restoreFolder (deleteFolder noFail 3 rtDB 1 7 99).1 1 7).1.folders =
      [{ fid := 1, name := "A", parentId := none, ownerId := 7,
         path := "A", isDeleted := true, deletedAt := none }] ∧
    (deleteFolder noFail 3
        (restoreFolder (deleteFolder noFail 3 rtDB 1 7 99).1 1 7).1
        1 7 100).2 = some "folder not found or already deleted" := by decide

theorem markFolder_idem (now : Nat) (a : Folder) :
    markFolder now (markFolder now a) = markFolder now a := rfl

theorem folderEvolves_refl (now : Nat) (a : Folder) : folderEvolves now a a :=
  Or.inl rfl

theorem fileEvolves_refl (now : Nat) (a : File) : fileEvolves now a a :=
  Or.inl rfl

theorem folderEvolves_trans {now : Nat} {a b c : Folder}
    (h1 : folderEvolves now a b) (h2 : folderEvolves now b c) :
    folderEvolves now a c := by
  rcases h1 with rfl | rfl <;> rcases h2 with rfl | rfl <;>
    simp [folderEvolves, markFolder_idem]

theorem fileEvolves_trans {now : Nat} {a b c : File}
    (h1 : fileEvolves now a b) (h2 : fileEvolves now b c) :
    fileEvolves now a c := by
  rcases h1 with rfl | rfl <;> rcases h2 with rfl | rfl <;>
    simp [fileEvolves, markFile]

theorem forall2_self {α : Type} {R : α → α → Prop} (h : ∀ a, R a a) :
    ∀ l : List α, List.Forall₂ R l l := by
  intro l
  induction l with
  | nil => exact .nil
  | cons a l ih => exact .cons (h a) ih

theorem forall2_map_self {α : Type} {R : α → α → Prop} (g : α → α)
    (h : ∀ a, R a (g a)) : ∀ l : List α, List.Forall₂ R l (l.map g) := by
  intro l
  induction l with
  | nil => exact .nil
  | cons a l ih => exact .cons (h a) ih

theorem forall2_trans {α : Type} (R : α → α → Prop)
    (hR : ∀ a b c, R a b → R b c → R a c) :
    ∀ {l1 l2 l3 : List α}, List.Forall₂ R l1 l2 → List.Forall₂ R l2 l3 →
      List.Forall₂ R l1 l3 := by
  intro l1 l2 l3 h12
  induction h12 generalizing l3 with
  | nil => intro h; cases h; exact .nil
  | cons hab htail ih =>
    intro h
    cases h with
    | cons hbc htail2 => exact .cons (hR _ _ _ hab hbc) (ih htail2)

theorem forall2_mem_right {α β : Type} {R : α → β → Prop} :
    ∀ {l1 : List α} {l2 : List β}, List.Forall₂ R l1 l2 →
      ∀ b ∈ l2, ∃ a ∈ l1, R a b := by
  intro l1 l2 h
  induction h with
  | nil => intro b hb; cases hb
  | cons hab htail ih =>
    intro b hb
    rcases List.mem_cons.mp hb with rfl | hb2
    · exact ⟨_, List.mem_cons_self _ _, hab⟩
    · obtain ⟨a, ha, hr⟩ := ih b hb2
      exact ⟨a, List.mem_cons_of_mem _ ha, hr⟩

theorem forall2_mem_left {α β : Type} {R : α → β → Prop} :
    ∀ {l1 : List α} {l2 : List β}, List.Forall₂ R l1 l2 →
      ∀ a ∈ l1, ∃ b ∈ l2, R a b := by
  intro l1 l2 h
  induction h with
  | nil => intro a ha; cases ha
  | cons hab htail ih =>
    intro a ha
    rcases List.mem_cons.mp ha with rfl | ha2
    · exact ⟨_, List.mem_cons_self _ _, hab⟩
    · obtain ⟨b, hb, hr⟩ := ih a ha2
      exact ⟨b, List.mem_cons_of_mem _ hb, hr⟩

theorem dbEvolves_refl (now : Nat) (d : DB) : dbEvolves now d d :=
  ⟨forall2_self (folderEvolves_refl now) _,
   forall2_self (fileEvolves_refl now) _, rfl, rfl, rfl, rfl⟩

theorem dbEvolves_trans {now : Nat} {d1 d2 d3 : DB}
    (h1 : dbEvolves now d1 d2) (h2 : dbEvolves now d2 d3) :
    dbEvolves now d1 d3 := by
  obtain ⟨ha1, hb1, hc1, hd1, he1, hf1⟩ := h1
  obtain ⟨ha2, hb2, hc2, hd2, he2, hf2⟩ := h2
  exact ⟨forall2_trans (folderEvolves now)
           (fun _ _ _ h1 h2 => folderEvolves_trans h1 h2) ha1 ha2,
         forall2_trans (fileEvolves now)
           (fun _ _ _ h1 h2 => fileEvolves_trans h1 h2) hb1 hb2,
         hc2.trans hc1, hd2.trans hd1, he2.trans he1, hf2.trans hf1⟩

theorem dbEvolves_markTopFolder (now x : Nat) (d : DB) :
    dbEvolves now d (markTopFolder now x d) := by
  refine ⟨?_, ?_, rfl, rfl, rfl, rfl⟩
  · apply forall2_map_self
    intro a
    by_cases h : a.fid = x ∧ a.isDeleted = false <;>
      simp [folderEvolves, h]
  · exact forall2_self (fileEvolves_refl now) _

theorem dbEvolves_markFoldersDeleted (now : Nat) (ids : List Nat) (d : DB) :
    dbEvolves now d (markFoldersDeleted now ids d) := by
  refine ⟨?_, ?_, rfl, rfl, rfl, rfl⟩
  · apply forall2_map_self
    intro a
    by_cases h : a.fid ∈ ids <;> simp [folderEvolves, h]
  · exact forall2_self (fileEvolves_refl now) _

theorem dbEvolves_markFilesDeleted (now q : Nat) (d : DB) :
    dbEvolves now d (markFilesDeleted now q d) := by
  refine ⟨?_, ?_, rfl, rfl, rfl, rfl⟩
  · exact forall2_self (folderEvolves_refl now) _
  · apply forall2_map_self
    intro a
    by_cases h : a.folderId = some q ∧ a.isDeleted = false <;>
      simp [fileEvolves, h]

theorem foldersDone_mono {now : Nat} {d d2 : DB} {q : Nat}
    (hev : dbEvolves now d d2) (h : foldersDone d q) : foldersDone d2 q := by
  intro f2 hf2 hpar
  obtain ⟨f, hf, hev2⟩ := forall2_mem_right hev.1 f2 hf2
  rcases hev2 with rfl | rfl
  · exact h _ hf hpar
  · rfl

theorem filesDone_mono {now : Nat} {d d2 : DB} {q : Nat}
    (hev : dbEvolves now d d2) (h : filesDone d q) : filesDone d2 q := by
  intro f2 hf2 hfol
  obtain ⟨f, hf, hev2⟩ := forall2_mem_right hev.2.1 f2 hf2
  rcases hev2 with rfl | rfl
  · exact h _ hf hfol
  · rfl

theorem handled_mono {now : Nat} {d d2 : DB} {q : Nat}
    (hev : dbEvolves now d d2) (h : handled d q) : handled d2 q :=
  ⟨foldersDone_mono hev h.1, filesDone_mono hev h.2⟩

theorem deadAll_mono {now : Nat} {d d2 : DB} {x : Nat}
    (hev : dbEvolves now d d2) (h : deadAll d x) : deadAll d2 x := by
  intro f2 hf2 hfid
  obtain ⟨f, hf, hev2⟩ := forall2_mem_right hev.1 f2 hf2
  rcases hev2 with rfl | rfl
  · exact h _ hf hfid
  · rfl

theorem pendingSafe_subset {now : Nat} {d : DB} {S1 S2 : List Nat}
    (hss : ∀ x, x ∈ S1 → x ∈ S2) (h : pendingSafe now d S1) :
    pendingSafe now d S2 := by
  intro f hf hm
  rcases h f hf hm with h2 | h2
  · exact Or.inl (hss _ h2)
  · exact Or.inr h2

theorem pendingSafe_drop {now : Nat} {d : DB} {S1 S2 : List Nat}
    (h : pendingSafe now d S1) (hh : ∀ x ∈ S1, x ∈ S2 ∨ handled d x) :
    pendingSafe now d S2 := by
  intro f hf hm
  rcases h f hf hm with h2 | h2
  · exact hh _ h2
  · exact Or.inr h2

theorem pendingSafe_nofolderchange {now : Nat} {d d2 : DB} {S : List Nat}
    (hfold : d2.folders = d.folders) (hev : dbEvolves now d d2)
    (h : pendingSafe now d S) : pendingSafe now d2 S := by
  intro f hf hm
  rw [hfold] at hf
  rcases h f hf hm with h2 | h2
  · exact Or.inl h2
  · exact Or.inr (handled_mono hev h2)

theorem doWrite_ok {fail : Nat → Bool} {st : TxState} {g : DB → DB}
    {st2 : TxState} (h : doWrite fail st g = .ok st2) : st2.db = g st.db := by
  unfold doWrite at h
  split at h
  · cases h
  · cases h; rfl

theorem markFoldersDeleted_foldersDone (now q : Nat) (ids : List Nat) (d : DB)
    (hcs : ∀ f ∈ d.folders, f.parentId = some q → f.isDeleted = false →
      f.fid ∈ ids) :
    foldersDone (markFoldersDeleted now ids d) q := by
  intro f2 hf2 hpar
  simp only [markFoldersDeleted, List.mem_map] at hf2
  obtain ⟨f, hf, rfl⟩ := hf2
  by_cases hin : f.fid ∈ ids
  · simp [hin, markFolder]
  · simp only [if_neg hin] at hpar ⊢
    by_cases hde : f.isDeleted
    · exact hde
    · exact absurd (hcs f hf hpar (by simpa using hde)) hin

theorem markTopFolder_deadAll (now x : Nat) (d : DB) :
    deadAll (markTopFolder now x d) x := by
  intro f2 hf2 hfid
  simp only [markTopFolder, List.mem_map] at hf2
  obtain ⟨f, hf, rfl⟩ := hf2
  by_cases hc : f.fid = x ∧ f.isDeleted = false
  · simp [hc, markFolder]
  · simp only [if_neg hc] at hfid ⊢
    by_cases hde : f.isDeleted
    · exact hde
    · exact absurd ⟨hfid, by simpa using hde⟩ hc

theorem markTopFolder_pendingSafe (now x : Nat) (d : DB)
    (hfresh : ∀ f ∈ d.folders, f.deletedAt ≠ some now) :
    pendingSafe now (markTopFolder now x d) [x] := by
  intro f2 hf2 hm
  simp only [markTopFolder, List.mem_map] at hf2
  obtain ⟨f, hf, rfl⟩ := hf2
  by_cases hc : f.fid = x ∧ f.isDeleted = false
  · left
    simp only [if_pos hc, markFolder]
    simp [hc.1]
  · rw [if_neg hc] at hm
    exact absurd hm (hfresh f hf)

theorem markFilesDeleted_filesDone (now q : Nat) (d : DB) :
    filesDone (markFilesDeleted now q d) q := by
  intro h2 hh2 hfol
  simp only [markFilesDeleted, List.mem_map] at hh2
  obtain ⟨g, hg, rfl⟩ := hh2
  by_cases hc : g.folderId = some q ∧ g.isDeleted = false
  · simp [hc, markFile]
  · simp only [if_neg hc] at hfol ⊢
    by_cases hde : g.isDeleted
    · exact hde
    · exact absurd ⟨hfol, by simpa using hde⟩ hc

theorem markFoldersDeleted_pendingSafe (now : Nat) (ids : List Nat) (d : DB)
    (S0 : List Nat) (hp : pendingSafe now d S0) :
    pendingSafe now (markFoldersDeleted now ids d) (S0 ++ ids) := by
  intro f2 hf2 hm
  simp only [markFoldersDeleted, List.mem_map] at hf2
  obtain ⟨f, hf, rfl⟩ := hf2
  by_cases hin : f.fid ∈ ids
  · left
    simp only [if_pos hin, markFolder]
    simp [List.mem_append, hin]
  · simp only [if_neg hin] at hm ⊢
    rcases hp f hf hm with h2 | h2
    · exact Or.inl (List.mem_append.mpr (Or.inl h2))
    · exact Or.inr (handled_mono (dbEvolves_markFoldersDeleted now ids d) h2)

theorem processChildren_spec (fail : Nat → Bool) (now : Nat)
    (recur : Nat → TxState → Except String TxState)
    (hrec : ∀ q st st2, recur q st = .ok st2 →
      dbEvolves now st.db st2.db ∧ foldersDone st2.db q ∧
      (∀ S, pendingSafe now st.db (q :: S) → pendingSafe now st2.db (q :: S))) :
    ∀ (l : List Nat) (st stf : TxState),
      processChildren fail now recur l st = .ok stf →
      dbEvolves now st.db stf.db ∧
      (∀ S, pendingSafe now st.db (S ++ l) → pendingSafe now stf.db S) := by
  intro l
  induction l with
  | nil =>
    intro st stf h
    simp only [processChildren] at h
    cases h
    exact ⟨dbEvolves_refl now _, fun S hp => by simpa using hp⟩
  | cons c rest ih =>
    intro st stf h
    simp only [processChildren] at h
    split at h
    next e h1 => cases h
    next st1 h1 =>
      split at h
      next e h2 => cases h
      next st2 h2 =>
        obtain ⟨hev1, hfd1, hps1⟩ := hrec c st st1 h1
        have hw2 : st2.db = markFilesDeleted now c st1.db := doWrite_ok h2
        have hev2 : dbEvolves now st1.db st2.db := by
          rw [hw2]; exact dbEvolves_markFilesDeleted now c st1.db
        obtain ⟨hev3, hps3⟩ := ih st2 stf h
        refine ⟨dbEvolves_trans (dbEvolves_trans hev1 hev2) hev3, ?_⟩
        intro S hp
        have hp0 : pendingSafe now st.db (c :: (S ++ rest)) :=
          pendingSafe_subset (by
            intro x hx
            simp only [List.mem_append, List.mem_cons] at hx ⊢
            tauto) hp
        have hp1 : pendingSafe now st1.db (c :: (S ++ rest)) :=
          hps1 (S ++ rest) hp0
        have hp2 : pendingSafe now st2.db (c :: (S ++ rest)) :=
          pendingSafe_nofolderchange (by rw [hw2]; rfl) hev2 hp1
        have hfd2 : foldersDone st2.db c := foldersDone_mono hev2 hfd1
        have hfl2 : filesDone st2.db c := by
          rw [hw2]; exact markFilesDeleted_filesDone now c st1.db
        have hp3 : pendingSafe now st2.db (S ++ rest) :=
          pendingSafe_drop hp2 (by
            intro x hx
            rcases List.mem_cons.mp hx with rfl | hx2
            · exact Or.inr ⟨hfd2, hfl2⟩
            · exact Or.inl hx2)
        exact hps3 S hp3

theorem softDeleteSubfolders_spec (fail : Nat → Bool) (now : Nat) :
    ∀ (fuel q : Nat) (st stf : TxState),
      softDeleteSubfolders fail now fuel q st = .ok stf →
      dbEvolves now st.db stf.db ∧ foldersDone stf.db q ∧
      (∀ S, pendingSafe now st.db (q :: S) → pendingSafe now stf.db (q :: S)) := by
  intro fuel
  induction fuel with
  | zero => intro q st stf h; cases h
  | succ n ih =>
    intro q st stf h
    simp only [softDeleteSubfolders] at h
    by_cases hemp : ((activeChildren st.db q).map Folder.fid).isEmpty
    · rw [if_pos hemp] at h
      cases h
      refine ⟨dbEvolves_refl now _, ?_, fun S hp => hp⟩
      intro f hf hpar
      by_cases hde : f.isDeleted
      · exact hde
      · exfalso
        have hmem : f ∈ activeChildren st.db q := by
          simp only [activeChildren, List.mem_filter]
          exact ⟨hf, by simp [hpar, hde]⟩
        have hmem2 : f.fid ∈ (activeChildren st.db q).map Folder.fid :=
          List.mem_map_of_mem _ hmem
        rw [List.isEmpty_iff] at hemp
        rw [hemp] at hmem2
        cases hmem2
    · rw [if_neg hemp] at h
      split at h
      next e h1 => cases h
      next st1 h1 =>
        have hw1 : st1.db =
            markFoldersDeleted now ((activeChildren st.db q).map Folder.fid)
              st.db := doWrite_ok h1
        obtain ⟨hev2, hps2⟩ := processChildren_spec fail now _ ih _ st1 stf h
        have hev1 : dbEvolves now st.db st1.db := by
          rw [hw1]; exact dbEvolves_markFoldersDeleted _ _ _
        refine ⟨dbEvolves_trans hev1 hev2, ?_, ?_⟩
        · have h1d : foldersDone st1.db q := by
            rw [hw1]
            apply markFoldersDeleted_foldersDone
            intro f hf hpar hact
            apply List.mem_map_of_mem
            simp only [activeChildren, List.mem_filter]
            exact ⟨hf, by simp [hpar, hact]⟩
          exact foldersDone_mono hev2 h1d
        · intro S hp
          have hp1 : pendingSafe now st1.db
              ((q :: S) ++ (activeChildren st.db q).map Folder.fid) := by
            rw [hw1]
            exact markFoldersDeleted_pendingSafe now _ st.db (q :: S) hp
          exact hps2 (q :: S) hp1

theorem deleteFolderCallback_spec (fail : Nat → Bool) (now fuel x : Nat)
    (st stf : TxState) (h : deleteFolderCallback fail now fuel x st = .ok stf)
    (hfresh : ∀ f ∈ st.db.folders, f.deletedAt ≠ some now) :
    dbEvolves now st.db stf.db ∧ deadAll stf.db x ∧ handled stf.db x ∧
    pendingSafe now stf.db [] := by
  unfold deleteFolderCallback at h
  split at h
  · cases h
  · split at h
    next e h1 => cases h
    next st1 h1 =>
      split at h
      next e h2 => cases h
      next st2 h2 =>
        have hw1 : st1.db = markTopFolder now x st.db := doWrite_ok h1
        have hw3 : stf.db = markFilesDeleted now x st2.db := doWrite_ok h
        obtain ⟨hev2, hfd2, hps2⟩ :=
          softDeleteSubfolders_spec fail now fuel x st1 st2 h2
        have hev1 : dbEvolves now st.db st1.db := by
          rw [hw1]; exact dbEvolves_markTopFolder _ _ _
        have hev3 : dbEvolves now st2.db stf.db := by
          rw [hw3]; exact dbEvolves_markFilesDeleted _ _ _
        have hevall : dbEvolves now st.db stf.db :=
          dbEvolves_trans (dbEvolves_trans hev1 hev2) hev3
        have hdead1 : deadAll st1.db x := by
          rw [hw1]; exact markTopFolder_deadAll _ _ _
        have hdead : deadAll stf.db x :=
          deadAll_mono hev3 (deadAll_mono hev2 hdead1)
        have hfdf : foldersDone stf.db x := foldersDone_mono hev3 hfd2
        have hflf : filesDone stf.db x := by
          rw [hw3]; exact markFilesDeleted_filesDone _ _ _
        have hp1 : pendingSafe now st1.db [x] := by
          rw [hw1]; exact markTopFolder_pendingSafe _ _ _ hfresh
        have hp2 : pendingSafe now st2.db [x] := hps2 [] hp1
        have hp3 : pendingSafe now stf.db [x] :=
          pendingSafe_nofolderchange (by rw [hw3]; rfl) hev3 hp2
        have hp4 : pendingSafe now stf.db [] :=
          pendingSafe_drop hp3 (by
            intro y hy
            rcases List.mem_singleton.mp hy with rfl
            exact Or.inr ⟨hfdf, hflf⟩)
        exact ⟨hevall, hdead, ⟨hfdf, hflf⟩, hp4⟩

theorem subPath_marked (now : Nat) (d d2 : DB)
    (hfor : List.Forall₂ (folderEvolves now) d.folders d2.folders)
    (hps : pendingSafe now d2 []) :
    ∀ (l : List Folder) (x : Nat), subPathOk d x l = true →
      markedNowId now d2 x → ∀ c ∈ l, markFolder now c ∈ d2.folders := by
  intro l
  induction l with
  | nil => intro x h hm c hc; cases hc
  | cons c rest ih =>
    intro x h hm c2 hc2
    simp only [subPathOk, Bool.and_eq_true] at h
    obtain ⟨⟨⟨hmem, hact⟩, hpar⟩, hrest⟩ := h
    have hmem2 : c ∈ d.folders := by simpa using hmem
    have hactv : c.isDeleted = false := by simpa using hact
    have hpar2 : c.parentId = some x := by simpa using hpar
    obtain ⟨y, hy, hym, hyx⟩ := hm
    have hhand : handled d2 y.fid := by
      rcases hps y hy hym with h0 | h0
      · cases h0
      · exact h0
    rw [hyx] at hhand
    obtain ⟨c2d, hc2d, hev⟩ := forall2_mem_left hfor c hmem2
    have hcm : c2d = markFolder now c := by
      rcases hev with h6 | h6
      · exfalso
        have hdel := hhand.1 c2d hc2d (by rw [h6]; exact hpar2)
        rw [h6, hactv] at hdel
        cases hdel
      · exact h6
    have hmm : markFolder now c ∈ d2.folders := hcm ▸ hc2d
    rcases List.mem_cons.mp hc2 with rfl | hcr
    · exact hmm
    · exact ih c.fid hrest ⟨markFolder now c, hmm, rfl, rfl⟩ c2 hcr

/-- C4: Cascade delete atomicity — `DeleteFolder` runs the whole
cascade in one transaction, so under any injected write fault an error
outcome leaves the database exactly as it was; and a success outcome
only stamps records with the single timestamp `now` (every record is
unchanged or carries `deletedAt = now`), stamps the root folder, stamps
every folder on any downward active path from the root, and stamps every
active file contained in the root or in any folder the cascade stamped —
all `N + M + 1` items with the identical timestamp. -/
theorem cascade_delete_atomicity (fail : Nat → Bool) (fuel : Nat) (db : DB)
    (x u now : Nat)
    (hfresh : ∀ f ∈ db.folders, f.deletedAt ≠ some now) :
    ∀ dbf err, deleteFolder fail fuel db x u now = (dbf, err) →
      (err.isSome → dbf = db) ∧
      (err = none →
        dbEvolves now db dbf ∧
        (∀ f0, db.folders.find? (fun f => f.fid == x && f.isDeleted == false) =
            some f0 → markFolder now f0 ∈ dbf.folders) ∧
        (∀ l, subPathOk db x l = true →
          ∀ c ∈ l, markFolder now c ∈ dbf.folders) ∧
        (∀ q, markedNowId now dbf q →
          ∀ g ∈ db.files, g.folderId = some q → g.isDeleted = false →
            markFile now g ∈ dbf.files)) := by
  intro dbf err h
  unfold deleteFolder at h
  split at h
  · cases h
    exact ⟨fun _ => rfl, fun hc => by cases hc⟩
  · cases h
    exact ⟨fun _ => rfl, fun hc => by cases hc⟩
  · split at h
    · cases h
      exact ⟨fun _ => rfl, fun hc => by cases hc⟩
    next f1 hfind =>
      split at h
      · cases h
        exact ⟨fun _ => rfl, fun hc => by cases hc⟩
      next stf hcb =>
        cases h
        refine ⟨fun hsome => by simp at hsome, fun _ => ?_⟩
        obtain ⟨hev, hdead, hhand, hps⟩ :=
          deleteFolderCallback_spec fail now fuel x ⟨db, 0⟩ stf hcb hfresh
        have hmemf1 : f1 ∈ db.folders := List.mem_of_find?_eq_some hfind
        have hpred := List.find?_some hfind
        simp only [Bool.and_eq_true, beq_iff_eq] at hpred
        obtain ⟨hfid, hactv⟩ := hpred
        have hmark1 : markFolder now f1 ∈ stf.db.folders := by
          obtain ⟨f2, hf2, hev2⟩ := forall2_mem_left hev.1 f1 hmemf1
          rcases hev2 with h6 | h6
          · exfalso
            have hdel := hdead f2 hf2 (by rw [h6]; exact hfid)
            rw [h6, hactv] at hdel
            cases hdel
          · rw [h6] at hf2
            exact hf2
        refine ⟨hev, ?_, ?_, ?_⟩
        · intro f0 hf0
          rw [hfind] at hf0
          injection hf0 with hf0e
          rw [← hf0e]
          exact hmark1
        · intro l hl c hc
          exact subPath_marked now db stf.db hev.1 hps l x hl
            ⟨markFolder now f1, hmark1, rfl, hfid⟩ c hc
        · intro q hq g hg hfolid hact
          obtain ⟨y, hy, hym, hyq⟩ := hq
          have hhq : handled stf.db y.fid := by
            rcases hps y hy hym with h0 | h0
            · cases h0
            · exact h0
          rw [hyq] at hhq
          obtain ⟨g2, hg2, hev2⟩ := forall2_mem_left hev.2.1 g hg
          rcases hev2 with h6 | h6
          · exfalso
            have hdel := hhq.2 g2 hg2 (by rw [h6]; exact hfolid)
            rw [h6, hact] at hdel
            cases hdel
          · rw [h6] at hg2
            exact hg2

/-- Witness for C4: with no fault the cascade stamps the child, the
grandchild and the file inside the grandchild with the one timestamp 99,
and with a fault injected on the third write the whole delete reports an
error and the database is exactly the original. -/
theorem cascade_delete_atomicity_witness :
    markFolder 99 casB ∈ (deleteFolder noFail 5 casDB 1 7 99).1.folders ∧
    markFolder 99 casC ∈ (deleteFolder noFail 5 casDB 1 7 99).1.folders ∧
    markFile 99 casFile ∈ (deleteFolder noFail 5 casDB 1 7 99).1.files ∧
    (deleteFolder (fun n => n == 2) 5 casDB 1 7 99).2.isSome = true ∧
    (deleteFolder (fun n => n == 2) 5 casDB 1 7 99).1 = casDB := by
  have h1 := cascade_delete_atomicity noFail 5 casDB 1 7 99 (by decide)
    (deleteFolder noFail 5 casDB 1 7 99).1
    (deleteFolder noFail 5 casDB 1 7 99).2 rfl
  have h2 := cascade_delete_atomicity (fun n => n == 2) 5 casDB 1 7 99
    (by decide) (deleteFolder (fun n => n == 2) 5 casDB 1 7 99).1
    (deleteFolder (fun n => n == 2) 5 casDB 1 7 99).2 rfl
  obtain ⟨hev, hroot, hchain, hfiles⟩ := h1.2 (by decide)
  refine ⟨?_, ?_, ?_, by decide, h2.1 (by decide)⟩
  · exact hchain [casB] (by decide) casB (by decide)
  · exact hchain [casB, casC] (by decide) casC (by decide)
  · exact hfiles 3 (by decide) casFile (by decide) (by decide) (by decide)

theorem inheritStep_snd_ok (gfuel cfuel : Nat) (db2 : DB) (rt : RType)
    (inherit : Bool) (rid targetUid : Nat) (role : String)
    (sharerId now : Nat) :
    ∃ n, (inheritStep gfuel cfuel db2 rt inherit rid targetUid role
      sharerId now).2 = Except.ok n := by
  cases rt <;> cases inherit <;> exact ⟨_, rfl⟩

set_option maxHeartbeats 1000000 in
theorem shareResource_error_frame (gf : Bool) (fuel gfuel cfuel : Nat)
    (db : DB) (rt : RType) (rid : Nat) (email role : String) (inherit : Bool)
    (sharerId now : Nat)
    (hfresh : ∀ s ∈ db.shares, s.sid ≠ db.nextId) :
    ∀ dbf res, shareResource gf fuel gfuel cfuel db rt rid email role inherit
        sharerId now = (dbf, res) →
      ∀ e, res = .error e →
        dbf.permissions = db.permissions ∧ dbf.shares = db.shares ∧
        dbf.folders = db.folders ∧ dbf.files = db.files ∧
        dbf.users = db.users := by
  intro dbf res h
  unfold shareResource at h
  dsimp only at h
  repeat' split at h
  all_goals try (cases h; intro e he; exact ⟨rfl, rfl, rfl, rfl, rfl⟩)
  all_goals try (cases h; intro e he; cases he)
  all_goals try
    (intro e he
     obtain ⟨n, hn⟩ := inheritStep_snd_ok gfuel cfuel _ rt inherit rid _
       role sharerId now
     rw [h] at hn
     simp only at hn
     rw [he] at hn
     cases hn)
  all_goals dsimp only
  all_goals refine ⟨rfl, ?_, rfl, rfl, rfl⟩
  all_goals rw [List.filter_append]
  all_goals
    (have h1 : db.shares.filter (fun s => s.sid != db.nextId) = db.shares :=
       List.filter_eq_self.mpr (fun s hs => bne_iff_ne.mpr (hfresh s hs))
     simp [h1])

theorem shareFolderGrant_ok_ne_self {gfuel : Nat} {db : DB} {c t : Nat}
    {role : String} {s now : Nat} {db2 : DB}
    (h : shareFolderGrant gfuel db c t role s now = .ok db2) : t ≠ s := by
  unfold shareFolderGrant at h
  split at h
  · cases h
  · split at h
    · cases h
    · split at h
      · cases h
      · cases h
      · split at h
        · cases h
        · rename_i hts
          exact hts

theorem shareFileGrant_ok_ne_self {gfuel : Nat} {db : DB} {c t : Nat}
    {role : String} {s now : Nat} {db2 : DB}
    (h : shareFileGrant gfuel db c t role s now = .ok db2) : t ≠ s := by
  unfold shareFileGrant at h
  split at h
  · cases h
  · split at h
    · cases h
    · split at h
      · cases h
      · cases h
      · split at h
        · cases h
        · rename_i hts
          exact hts

set_option maxHeartbeats 1000000 in
theorem shareResource_ok_inv (gf : Bool) (fuel gfuel cfuel : Nat)
    (db : DB) (rt : RType) (rid : Nat) (email role : String) (inherit : Bool)
    (sharerId now : Nat) :
    ∀ dbf res, shareResource gf fuel gfuel cfuel db rt rid email role inherit
        sharerId now = (dbf, res) →
      ∀ n, res = .ok n →
        (∃ hasPerm, validateSharePermission fuel db rt rid sharerId =
            .ok hasPerm ∧ hasPerm = true) ∧
        gf = false ∧
        ∃ target, findUserByEmail db email = some target ∧
          target.uid ≠ sharerId ∧
          db.shares.find? (fun s => s.resourceId == rid &&
            s.resourceType == rtStr rt && s.sharedWith == target.uid &&
            s.isActive) = none := by
  intro dbf res h
  unfold shareResource at h
  dsimp only at h
  repeat' split at h
  all_goals try (cases h; intro n hn; cases hn)
  all_goals try (intro n hn; cases hn)
  all_goals
    (rename_i x0 hasPerm hval hnp x2 target hemail x3 hdup x4 vname hname
       x5 sharer hsharer x6 db2 hgrant
     have hpt : hasPerm = true := by simpa using hnp
     have hgf : gf = false := by
       by_contra hgfc
       rw [Bool.not_eq_false] at hgfc
       rw [hgfc] at hgrant
       simp [grantStep] at hgrant
     refine ⟨⟨hasPerm, hval, hpt⟩, hgf, target, hemail, ?_, hdup⟩
     rw [hgf] at hgrant
     cases rt
     all_goals simp [grantStep] at hgrant
     · exact shareFileGrant_ok_ne_self hgrant
     · exact shareFolderGrant_ok_ne_self hgrant)

/-- C8: Grant/Share atomic sync — with the grant write failing, every
`ShareResource` call either stops before writing anything or writes the
share record and then deletes it as compensation, so the call never
reports success and leaves both the permissions and the shares
collections exactly as they were: no half-written Grant/Share pair
remains behind an error. -/
theorem grant_share_atomic_sync (fuel gfuel cfuel : Nat) (db : DB)
    (rt : RType) (rid : Nat) (email role : String) (inherit : Bool)
    (sharerId now : Nat)
    (hfresh : ∀ s ∈ db.shares, s.sid ≠ db.nextId) :
    ∀ dbf res, shareResource true fuel gfuel cfuel db rt rid email role
        inherit sharerId now = (dbf, res) →
      (∀ n, res ≠ .ok n) ∧ dbf.permissions = db.permissions ∧
        dbf.shares = db.shares := by
  intro dbf res h
  have hok : ∀ n, res ≠ .ok n := by
    intro n hn
    obtain ⟨-, hgf, -⟩ := shareResource_ok_inv true fuel gfuel cfuel db rt rid
      email role inherit sharerId now dbf res h n hn
    cases hgf
  have herr : ∃ e, res = .error e := by
    cases res with
    | error e => exact ⟨e, rfl⟩
    | ok n => exact absurd rfl (hok n)
  obtain ⟨e, he⟩ := herr
  obtain ⟨h1, h2, -⟩ := shareResource_error_frame true fuel gfuel cfuel db rt
    rid email role inherit sharerId now hfresh dbf res h e he
  exact ⟨hok, h1, h2⟩

/-- C7: Share preconditions — a `ShareResource` call returns an error
and leaves the permission and share collections untouched whenever the
granter lacks admin permission on the resource, the grantee email does
not resolve to a user, the granter shares with themself, or an active
share already exists for that grantee and resource; the last conjunct
states that every error outcome leaves both collections unchanged. -/
theorem share_preconditions (fuel gfuel cfuel : Nat) (db : DB) (rt : RType)
    (rid : Nat) (email role : String) (inherit : Bool) (sharerId now : Nat)
    (hfresh : ∀ s ∈ db.shares, s.sid ≠ db.nextId) :
    ∀ dbf res, shareResource false fuel gfuel cfuel db rt rid email role
        inherit sharerId now = (dbf, res) →
      ((validateSharePermission fuel db rt rid sharerId = .ok false →
          ∃ e, res = .error e) ∧
       (findUserByEmail db email = none → ∃ e, res = .error e) ∧
       (∀ target, findUserByEmail db email = some target →
          target.uid = sharerId → ∃ e, res = .error e) ∧
       (∀ target s0, findUserByEmail db email = some target →
          db.shares.find? (fun s => s.resourceId == rid &&
            s.resourceType == rtStr rt && s.sharedWith == target.uid &&
            s.isActive) = some s0 → ∃ e, res = .error e)) ∧
      (∀ e, res = .error e → dbf.permissions = db.permissions ∧
        dbf.shares = db.shares) := by
  intro dbf res h
  have herr : (∃ n, res = .ok n) ∨ ∃ e, res = .error e := by
    cases res with
    | error e => exact Or.inr ⟨e, rfl⟩
    | ok n => exact Or.inl ⟨n, rfl⟩
  refine ⟨?_, fun e he => ?_⟩
  · rcases herr with ⟨n, hn⟩ | ⟨e, he⟩
    · obtain ⟨⟨hasPerm, hval, hpt⟩, -, target, hemail, hne, hdup⟩ :=
        shareResource_ok_inv false fuel gfuel cfuel db rt rid email role
          inherit sharerId now dbf res h n hn
      refine ⟨?_, ?_, ?_, ?_⟩
      · intro hv0
        rw [hval] at hv0
        rw [hpt] at hv0
        cases hv0
      · intro he0
        rw [he0] at hemail
        cases hemail
      · intro target2 hemail2 hself
        rw [hemail] at hemail2
        injection hemail2 with hte
        rw [← hte] at hself
        exact absurd hself hne
      · intro target2 s0 hemail2 hdup2
        rw [hemail] at hemail2
        injection hemail2 with hte
        rw [← hte] at hdup2
        rw [hdup] at hdup2
        cases hdup2
    · exact ⟨fun _ => ⟨e, he⟩, fun _ => ⟨e, he⟩, fun _ _ _ => ⟨e, he⟩,
             fun _ _ _ _ => ⟨e, he⟩⟩
  · obtain ⟨h1, h2, -⟩ := shareResource_error_frame false fuel gfuel cfuel db
      rt rid email role inherit sharerId now hfresh dbf res h e he
    exact ⟨h1, h2⟩

/-- Witness for C7 at the self-share precondition: user 9 sharing their
own folder with their own email gets an error and the permission and
share collections stay unchanged. -/
theorem share_preconditions_witness :
    (∃ e, (shareResource false 2 2 2 svcDB .folder 1 "a@x.io" "editor" false
        9 0).2 = .error e) ∧
    (shareResource false 2 2 2 svcDB .folder 1 "a@x.io" "editor" false
        9 0).1.permissions = svcDB.permissions ∧
    (shareResource false 2 2 2 svcDB .folder 1 "a@x.io" "editor" false
        9 0).1.shares = svcDB.shares := by
  have h := share_preconditions 2 2 2 svcDB .folder 1 "a@x.io" "editor" false
    9 0 (by decide)
    (shareResource false 2 2 2 svcDB .folder 1 "a@x.io" "editor" false 9 0).1
    (shareResource false 2 2 2 svcDB .folder 1 "a@x.io" "editor" false 9 0).2
    rfl
  obtain ⟨e, he⟩ := h.1.2.2.1
    { uid := 9, email := "a@x.io", firstName := "A", lastName := "A",
      usedStorage := 0 } (by decide) (by decide)
  exact ⟨⟨e, he⟩, (h.2 e he).1, (h.2 e he).2⟩

/-- Witness for C8: with the grant write failing, sharing folder 1 with
user 5 (all preconditions satisfied) does not succeed and leaves both
collections untouched — the compensating delete removed the share
record that had been written. -/
theorem grant_share_atomic_sync_witness :
    (shareResource true 2 2 2 svcDB .folder 1 "b@x.io" "editor" false
        9 0).2 ≠ .ok 0 ∧
    (shareResource true 2 2 2 svcDB .folder 1 "b@x.io" "editor" false
        9 0).1.permissions = svcDB.permissions ∧
    (shareResource true 2 2 2 svcDB .folder 1 "b@x.io" "editor" false
        9 0).1.shares = svcDB.shares := by
  have h := grant_share_atomic_sync 2 2 2 svcDB .folder 1 "b@x.io" "editor"
    false 9 0 (by decide)
    (shareResource true 2 2 2 svcDB .folder 1 "b@x.io" "editor" false 9 0).1
    (shareResource true 2 2 2 svcDB .folder 1 "b@x.io" "editor" false 9 0).2
    rfl
  exact ⟨h.1 0, h.2.1, h.2.2⟩

theorem deactivateGrant_key (rid tgt : Nat) (rty : String) (p : Permission) :
    (deactivateGrant rid tgt rty p).userId = p.userId ∧
    (deactivateGrant rid tgt rty p).resourceId = p.resourceId ∧
    (deactivateGrant rid tgt rty p).resourceType = p.resourceType ∧
    (deactivateGrant rid tgt rty p).role = p.role := by
  unfold deactivateGrant
  split <;> exact ⟨rfl, rfl, rfl, rfl⟩

theorem checkDirect_deactivate (db db2 : DB) (rid tgt : Nat) (rty : String)
    (hp : db2.permissions = db.permissions.map (deactivateGrant rid tgt rty))
    (u x : Nat) (ty r : String) :
    checkDirectPermission db2 u x ty r = checkDirectPermission db u x ty r := by
  unfold checkDirectPermission
  rw [hp, List.find?_map]
  have hpred : ((fun p : Permission => p.userId == u && p.resourceId == x &&
      p.resourceType == ty) ∘ deactivateGrant rid tgt rty) =
      (fun p : Permission => p.userId == u && p.resourceId == x &&
        p.resourceType == ty) := by
    funext p
    obtain ⟨h1, h2, h3, _⟩ := deactivateGrant_key rid tgt rty p
    simp [Function.comp, h1, h2, h3]
  rw [hpred]
  cases hf : db.permissions.find? (fun p => p.userId == u &&
      p.resourceId == x && p.resourceType == ty) with
  | none => rfl
  | some p =>
    have hrole := (deactivateGrant_key rid tgt rty p).2.2.2
    simp [hrole]

theorem hasFolderPermission_deactivate (rid tgt : Nat) (rty : String) :
    ∀ (fl : Nat) (db db2 : DB) (u c : Nat) (r : String),
      db2.folders = db.folders →
      db2.permissions = db.permissions.map (deactivateGrant rid tgt rty) →
      hasFolderPermission fl db2 u c r = hasFolderPermission fl db u c r := by
  intro fl
  induction fl with
  | zero => intro db db2 u c r hf hp; rfl
  | succ n ih =>
    intro db db2 u c r hf hp
    simp only [hasFolderPermission]
    have hff : findFolder db2 c = findFolder db c := by
      unfold findFolder; rw [hf]
    rw [hff]
    cases hfv : findFolder db c with
    | none => rfl
    | some folder =>
      rw [checkDirect_deactivate db db2 rid tgt rty hp u c "folder" r]
      by_cases how : folder.ownerId = u
      · simp [how]
      · by_cases hcd : checkDirectPermission db u c "folder" r
        · simp [how, hcd]
        · simp only [how, hcd, if_false, Bool.false_eq_true, if_neg,
            not_false_eq_true]
          cases folder.parentId with
          | none => simp
          | some pid => simp [ih db db2 u pid r hf hp]

theorem revokeFolderPermission_ok {fuel : Nat} {db : DB}
    {fid tgt rvk : Nat} {db2 : DB}
    (h : revokeFolderPermission fuel db fid tgt rvk = .ok db2) :
    db2 = { db with permissions :=
      db.permissions.map (deactivateGrant fid tgt "folder") } := by
  unfold revokeFolderPermission at h
  split at h
  · cases h
  · cases h
  · split at h
    · cases h
    · split at h
      · cases h
      · split at h
        · cases h
        · cases h
          rfl

theorem revokeFilePermission_ok {fuel : Nat} {db : DB}
    {fid tgt rvk : Nat} {db2 : DB}
    (h : revokeFilePermission fuel db fid tgt rvk = .ok db2) :
    db2 = { db with permissions :=
      db.permissions.map (deactivateGrant fid tgt "file") } := by
  unfold revokeFilePermission at h
  split at h
  · cases h
  · cases h
  · split at h
    · cases h
    · split at h
      · cases h
      · split at h
        · cases h
        · cases h
          rfl

/-- C10: `RevokePermission` does not cascade. When a revoke succeeds, it
found an active share record `sh` for the given share id, left the
folder/file/user collections untouched, kept every grant whose
(resource, type, user) key differs from the revoked share's key exactly
as it was, kept every share record with a different id, and did not
change the outcome of any folder permission check. In particular the
per-descendant grants written by an inheritToChildren share survive the
revocation of the top-level share, and the grantee keeps access to the
descendant folders. -/
theorem revoke_no_cascade (fuel : Nat) (db : DB) (shareId revokerId : Nat)
    (hty : ∀ s ∈ db.shares,
      s.resourceType = "file" ∨ s.resourceType = "folder")
    (dbf : DB)
    (h : revokePermission fuel db shareId revokerId = (dbf, none)) :
    ∃ sh, db.shares.find? (fun s => s.sid == shareId && s.isActive) =
        some sh ∧
      dbf.folders = db.folders ∧ dbf.files = db.files ∧
      dbf.users = db.users ∧
      (∀ p ∈ db.permissions,
        p.resourceId ≠ sh.resourceId ∨ p.resourceType ≠ sh.resourceType ∨
          p.userId ≠ sh.sharedWith → p ∈ dbf.permissions) ∧
      (∀ s ∈ db.shares, s.sid ≠ shareId → s ∈ dbf.shares) ∧
      (∀ (fl u2 c : Nat) (r : String),
        hasFolderPermission fl dbf u2 c r =
          hasFolderPermission fl db u2 c r) := by
  unfold revokePermission at h
  split at h
  · injection h with h1 h2
    exact Option.noConfusion h2
  next sh hfind =>
    split at h
    · injection h with h1 h2
      exact Option.noConfusion h2
    next hasPerm hval =>
      split at h
      · injection h with h1 h2
        exact Option.noConfusion h2
      · split at h
        · injection h with h1 h2
          exact Option.noConfusion h2
        next db2 hrev =>
          injection h with h1 h2
          subst h1
          have hmem : sh ∈ db.shares := List.mem_of_find?_eq_some hfind
          have hdb2 : db2 = { db with permissions := db.permissions.map (deactivateGrant sh.resourceId sh.sharedWith sh.resourceType) } := by
            rcases hty sh hmem with hfile | hfolder
            · rw [hfile] at hrev ⊢
              simp only [revokeByTypeStr] at hrev
              simp at hrev
              exact revokeFilePermission_ok hrev
            · rw [hfolder] at hrev ⊢
              simp only [revokeByTypeStr] at hrev
              simp at hrev
              exact revokeFolderPermission_ok hrev
          refine ⟨sh, hfind, by rw [hdb2], by rw [hdb2], by rw [hdb2],
            ?_, ?_, ?_⟩
          · intro p hp hdiff
            have hgp : deactivateGrant sh.resourceId sh.sharedWith
                sh.resourceType p = p := by
              unfold deactivateGrant
              rw [if_neg]
              rintro ⟨h1, h2, h3, _⟩
              rcases hdiff with hd | hd | hd
              · exact hd h2
              · exact hd h3
              · exact hd h1
            show p ∈ db2.permissions
            rw [hdb2]
            exact List.mem_map.mpr ⟨p, hp, hgp⟩
          · intro s hs hne
            show s ∈ db2.shares.map _
            rw [hdb2]
            exact List.mem_map.mpr ⟨s, hs, if_neg hne⟩
          · intro fl u2 c r
            refine hasFolderPermission_deactivate sh.resourceId
              sh.sharedWith sh.resourceType fl db _ u2 c r ?_ ?_
            · rw [hdb2]
            · rw [hdb2]

/-- Witness for C10: in `c10Shared` (folder 1 shared with user 5 with
inheritance, so a separate grant pid 103 exists on child folder 2),
revoking the top-level share sid 100 succeeds, the descendant grant on
folder 2 is still present and active afterwards, and user 5 still passes
the editor permission check on folder 2. -/
theorem revoke_no_cascade_witness :
    (revokePermission 3 c10Shared 100 9).2 = none ∧
    ({ pid := 103, userId := 5, role := "editor", resourceId := 2,
       resourceType := "folder", grantedBy := 9, grantedAt := 0,
       isActive := true } : Permission) ∈
      (revokePermission 3 c10Shared 100 9).1.permissions ∧
    hasFolderPermission 3 (revokePermission 3 c10Shared 100 9).1 5 2
      "editor" = .ok true := by
  have hty : ∀ s ∈ c10Shared.shares,
      s.resourceType = "file" ∨ s.resourceType = "folder" := by decide
  have hrun : revokePermission 3 c10Shared 100 9 = (c10After, none) := by
    decide
  obtain ⟨sh, hfind, hfold, hfiles, husers, hperm, hshares, hres⟩ :=
    revoke_no_cascade 3 c10Shared 100 9 hty c10After hrun
  have hshv : c10Shared.shares.find?
      (fun s => s.sid == 100 && s.isActive) = some
      { sid := 100, resourceId := 1, resourceType := "folder",
        sharedWith := 5, sharedBy := 9, role := "editor", sharedAt := 0,
        isActive := true } := by decide
  rw [hshv] at hfind
  injection hfind with hfind
  subst hfind
  refine ⟨by rw [hrun], ?_, ?_⟩
  · show _ ∈ c10After.permissions
    exact hperm _ (by decide) (by decide)
  · show hasFolderPermission 3 c10After 5 2 "editor" = .ok true
    rw [hres]
    decide

end PhynixDrive
